import Mathlib

/-!
# Verification of the dashboard context-menu builder and the `UiSettingsClient`

Shallow embedding of
`src/core_plugins/kibana/public/dashboard/panel/panel_header/panel_actions/build_context_menu.ts`
(which also carries the `UiSettingsClient` class) into Lean 4.

JavaScript runtime values relevant to the settings client are modelled by
`Val`: `undefined`, `null`, booleans, (integer) numbers, `NaN`, and strings.
JavaScript objects (setting entries, the cache, the defaults table) are
modelled as association lists from field names to values, where reading an
absent field yields `undefined`, matching property access semantics.
-/

/-- A JavaScript runtime value, restricted to the scalar values the settings
client manipulates. `nan` is kept separate from `num` because `NaN`'s
strict-equality behaviour (`NaN === NaN` is `false`) is observable in the
client's `unchanged` check. -/
inductive Val where
  | undefined : Val
  | null : Val
  | jsBool : Bool → Val
  | num : Int → Val
  | nan : Val
  | str : String → Val
deriving DecidableEq, Repr

/-- JavaScript strict equality `===` on modelled values. `NaN` is unequal to
everything, including itself. -/
def jsStrictEq : Val → Val → Bool
  | .undefined, .undefined => true
  | .null, .null => true
  | .jsBool a, .jsBool b => a == b
  | .num a, .num b => a == b
  | .str a, .str b => a == b
  | _, _ => false

/-- JavaScript loose equality against `null` (`x == null`), true exactly for
`null` and `undefined`. Used by `isDefault` and `overrideLocalDefault`. -/
def jsEqNull : Val → Bool
  | .null => true
  | .undefined => true
  | _ => false

/-- JavaScript truthiness (`Boolean(x)`), used by `isOverridden`. -/
def truthy : Val → Bool
  | .undefined => false
  | .null => false
  | .jsBool b => b
  | .num n => n != 0
  | .nan => false
  | .str s => s != ""

/-- `typeof x === 'string'`. -/
def isJsString : Val → Bool
  | .str _ => true
  | _ => false

/-- A JavaScript object: an association list from field names to values with
no duplicate field names (maintained by `objSet`). -/
abbrev JsObj := List (String × Val)

/-- Association-list lookup (shared by objects and the two string-keyed maps
`_cache` and `_defaults`). -/
def alistGet? {α : Type} : List (String × α) → String → Option α
  | [], _ => none
  | (k, v) :: rest, key => if k = key then some v else alistGet? rest key

/-- Association-list field assignment: replaces in place, appends if absent. -/
def alistSet {α : Type} : List (String × α) → String → α → List (String × α)
  | [], key, v => [(key, v)]
  | (k, w) :: rest, key, v =>
    if k = key then (key, v) :: rest else (k, w) :: alistSet rest key v

/-- Association list with every binding of `key` removed (JS `delete obj[key]`). -/
def alistDelete {α : Type} (l : List (String × α)) (key : String) : List (String × α) :=
  l.filter (fun p => p.1 ≠ key)

/-- Reading a property of a JS object: absent fields read as `undefined`. -/
def objGet (o : JsObj) (f : String) : Val :=
  (alistGet? o f).getD .undefined

/-- `f in o` (property presence, as used by `key in defaults`). -/
def objHas (o : JsObj) (f : String) : Bool :=
  (alistGet? o f).isSome

@[simp] theorem alistGet?_nil {α : Type} (key : String) :
    alistGet? ([] : List (String × α)) key = none := rfl

theorem alistGet?_alistSet_same {α : Type} (l : List (String × α)) (key : String) (v : α) :
    alistGet? (alistSet l key v) key = some v := by
  induction l with
  | nil => simp [alistSet, alistGet?]
  | cons p rest ih =>
    obtain ⟨k, w⟩ := p
    by_cases h : k = key <;> simp [alistSet, alistGet?, h, ih]

theorem alistGet?_alistSet_other {α : Type} (l : List (String × α)) (key key' : String) (v : α)
    (h : key ≠ key') : alistGet? (alistSet l key v) key' = alistGet? l key' := by
  induction l with
  | nil => simp [alistSet, alistGet?, h]
  | cons p rest ih =>
    obtain ⟨k, w⟩ := p
    by_cases hk : k = key
    · subst hk
      simp [alistSet, alistGet?, h, ih]
    · simp [alistSet, alistGet?, hk, ih]

theorem alistGet?_alistDelete_same {α : Type} (l : List (String × α)) (key : String) :
    alistGet? (alistDelete l key) key = none := by
  induction l with
  | nil => simp [alistDelete, alistGet?]
  | cons p rest ih =>
    obtain ⟨k, w⟩ := p
    by_cases h : k = key <;> simp_all [alistDelete, alistGet?, h]

theorem alistGet?_alistDelete_other {α : Type} (l : List (String × α)) (key key' : String)
    (h : key ≠ key') : alistGet? (alistDelete l key) key' = alistGet? l key' := by
  induction l with
  | nil => simp [alistDelete]
  | cons p rest ih =>
    obtain ⟨k, w⟩ := p
    by_cases hk : k = key <;> by_cases hk' : k = key' <;>
      simp_all [alistDelete, alistGet?, hk, hk']

theorem objGet_objSet_same (o : JsObj) (f : String) (v : Val) :
    objGet (alistSet o f v) f = v := by
  simp [objGet, alistGet?_alistSet_same]

theorem objGet_objSet_other (o : JsObj) (f f' : String) (v : Val) (h : f ≠ f') :
    objGet (alistSet o f v) f' = objGet o f' := by
  simp [objGet, alistGet?_alistSet_other _ _ _ _ h]

theorem objGet_objDelete_same (o : JsObj) (f : String) :
    objGet (alistDelete o f) f = .undefined := by
  simp [objGet, alistGet?_alistDelete_same]

theorem objGet_objDelete_other (o : JsObj) (f f' : String) (h : f ≠ f') :
    objGet (alistDelete o f) f' = objGet o f' := by
  simp [objGet, alistGet?_alistDelete_other _ _ _ h]

/-! ## Models of the JavaScript conversion functions used by the client

`get` applies `JSON.parse` to the current value of a `'json'`-typed key and
`parseFloat` to that of a `'number'`-typed key; `_setLocally` applies
`JSON.stringify` to non-string values written to `'json'`-typed keys. These
are modelled over `Val` directly: integers stand in for JS numbers, and a
failed parse is an `Except.error` (a thrown `SyntaxError`). -/

/-- Parse an entire character list as an optional-sign decimal integer
(the JSON number grammar restricted to the integers of the model; no
trailing characters allowed). -/
def parseAllDigits (cs : List Char) (acc : Option Nat) : Option Nat :=
  match cs with
  | [] => acc
  | c :: rest =>
    if c.isDigit then parseAllDigits rest (some ((acc.getD 0) * 10 + (c.toNat - 48)))
    else none

/-- Full-string signed integer parse. -/
def parseJsonInt (s : String) : Option Int :=
  match s.toList with
  | '-' :: rest => (parseAllDigits rest none).map (fun n => -(n : Int))
  | l => (parseAllDigits l none).map (fun n => (n : Int))

/-- A string is a simple JSON string literal when it is quote-delimited with
no interior quote or backslash (the model omits escape sequences). -/
def isSimpleJsonString (cs : List Char) : Bool :=
  match cs with
  | '"' :: rest =>
    rest ≠ [] && rest.getLast? == some '"' &&
      rest.dropLast.all (fun c => c ≠ '"' && c ≠ '\\')
  | _ => false

/-- `JSON.parse` on an actual string: recognizes `null`, `true`, `false`,
integer literals and simple string literals; everything else throws. -/
def jsonDecode (s : String) : Except Unit Val :=
  if s = "null" then .ok .null
  else if s = "true" then .ok (.jsBool true)
  else if s = "false" then .ok (.jsBool false)
  else if isSimpleJsonString s.toList then
    match s.toList with
    | _ :: rest => .ok (.str (String.mk rest.dropLast))
    | [] => .error ()
  else
    match parseJsonInt s with
    | some n => .ok (.num n)
    | none => .error ()

/-- `JSON.parse(v)`: a non-string argument is coerced to its string form
first, so `null`, booleans and finite numbers parse back to themselves while
`undefined` (→ `"undefined"`) and `NaN` (→ `"NaN"`) throw. -/
def jsonParse : Val → Except Unit Val
  | .str s => jsonDecode s
  | .null => .ok .null
  | .jsBool b => .ok (.jsBool b)
  | .num n => .ok (.num n)
  | .nan => .error ()
  | .undefined => .error ()

/-- `JSON.stringify(v)`: produces the JSON text as a string value;
`JSON.stringify(undefined)` is `undefined`, and `NaN` serializes as `null`. -/
def jsonStringify : Val → Val
  | .str s => .str ("\"" ++ s ++ "\"")
  | .num n => .str (toString n)
  | .jsBool b => .str (if b then "true" else "false")
  | .null => .str "null"
  | .nan => .str "null"
  | .undefined => .undefined

/-- Integer-prefix parse for the `parseFloat` model: an optional sign
followed by at least one digit; trailing characters are ignored. -/
def parseDigitsPrefix (cs : List Char) (acc : Option Nat) : Option Nat :=
  match cs with
  | [] => acc
  | c :: rest =>
    if c.isDigit then parseDigitsPrefix rest (some ((acc.getD 0) * 10 + (c.toNat - 48)))
    else acc

/-- Signed integer prefix of a string, `none` when no leading digits. -/
def parseIntPrefix (s : String) : Option Int :=
  match s.toList with
  | '-' :: rest => (parseDigitsPrefix rest none).map (fun n => -(n : Int))
  | l => (parseDigitsPrefix l none).map (fun n => (n : Int))

/-- `parseFloat(v)` (restricted to the integer numbers of the model): a
number is returned unchanged, a string is parsed by numeric prefix, and
every other value yields `NaN`. -/
def jsParseFloat : Val → Val
  | .num n => .num n
  | .nan => .nan
  | .str s =>
    match parseIntPrefix s with
    | some n => .num n
    | none => .nan
  | _ => .nan

/-- `parseFloat` is idempotent: its output is always a number or `NaN`,
both of which it maps to themselves. -/
theorem jsParseFloat_idem (v : Val) : jsParseFloat (jsParseFloat v) = jsParseFloat v := by
  cases v <;> try rfl
  rename_i s
  show jsParseFloat (jsParseFloat (.str s)) = jsParseFloat (.str s)
  rcases h : parseIntPrefix s with _ | n <;> simp [jsParseFloat, h]

/-! ## The `UiSettingsClient` state and operations

The client's mutable fields `_defaults` and `_cache` are both string-keyed
maps from setting key to a setting-entry object. The notification
collaborator (`_notify.error`) and the observer broadcasts are modelled as
an explicit event log returned by each operation; the remote
`_api.batchSet` call is modelled by passing its outcome (the `settings`
snapshot of a resolved call, or a rejection) as an argument. -/

/-- Thrown (synchronous or promise-rejecting) client errors. -/
inductive JsErr where
  | unrecognizedSetting : JsErr
  | overriddenSetting : JsErr
  | jsonSyntax : JsErr
deriving DecidableEq, Repr

/-- The observable state of a `UiSettingsClient`: its `_defaults` and
`_cache` maps. -/
structure ClientState where
  defaults : List (String × JsObj)
  cache : List (String × JsObj)
deriving DecidableEq, Repr

/-- The `{key, newValue, oldValue}` record passed to every update observer. -/
structure Broadcast where
  key : String
  newValue : Val
  oldValue : Val
deriving DecidableEq, Repr

/-- Entry of `_cache[key]`, taken as the empty object if absent (only read
behind `isDeclared` guards or after insertion of `{}`). -/
def cacheEntry (st : ClientState) (key : String) : JsObj :=
  (alistGet? st.cache key).getD []

/-- Entry of `_defaults[key]`, taken as the empty object if absent. -/
def defaultsEntry (st : ClientState) (key : String) : JsObj :=
  (alistGet? st.defaults key).getD []

/-- `isDeclared(key)`: `Boolean(key in this._cache)`. -/
def isDeclared (st : ClientState) (key : String) : Bool :=
  (alistGet? st.cache key).isSome

/-- `isDefault(key)`: `!this.isDeclared(key) || this._cache[key].userValue == null`. -/
def isDefault (st : ClientState) (key : String) : Bool :=
  !isDeclared st key || jsEqNull (objGet (cacheEntry st key) "userValue")

/-- `isCustom(key)`: `this.isDeclared(key) && !('value' in this._cache[key])`. -/
def isCustom (st : ClientState) (key : String) : Bool :=
  isDeclared st key && !objHas (cacheEntry st key) "value"

/-- `isOverridden(key)`: `this.isDeclared(key) && Boolean(this._cache[key].isOverridden)`. -/
def isOverridden (st : ClientState) (key : String) : Bool :=
  isDeclared st key && truthy (objGet (cacheEntry st key) "isOverridden")

/-- `get(key, defaultValue)`; an omitted second argument is `undefined`.
Returns the value or the thrown error. -/
def getSetting (st : ClientState) (key : String) (defaultValue : Val) : Except JsErr Val :=
  if !isDeclared st key then
    if !jsStrictEq defaultValue .undefined then .ok defaultValue
    else .error .unrecognizedSetting
  else
    let entry := cacheEntry st key
    let userValue := objGet entry "userValue"
    let definedDefault := objGet entry "value"
    let type := objGet entry "type"
    let currentValue :=
      if isDefault st key then
        if jsStrictEq defaultValue .undefined then definedDefault else defaultValue
      else userValue
    if jsStrictEq type (.str "json") then
      match jsonParse currentValue with
      | .ok v => .ok v
      | .error _ => .error .jsonSyntax
    else if jsStrictEq type (.str "number") then
      .ok (jsParseFloat currentValue)
    else
      .ok currentValue

/-- `_setLocally(key, newValue)`: asserts the key is not server-overridden,
declares it with `{}` if needed, reads the old effective value (which can
throw for `'json'`-typed keys), stores the new value (deleting the override
on `null`, JSON-stringifying non-string values for `'json'`-typed keys),
and broadcasts `{key, newValue, oldValue}`. -/
def setLocally (st : ClientState) (key : String) (newValue : Val) :
    Except JsErr (ClientState × Broadcast) :=
  if isOverridden st key then .error .overriddenSetting
  else
    let st1 : ClientState :=
      if !isDeclared st key then { st with cache := alistSet st.cache key [] } else st
    match getSetting st1 key .undefined with
    | .error e => .error e
    | .ok oldValue =>
      let entry := cacheEntry st1 key
      let entry1 :=
        if jsStrictEq newValue .null then alistDelete entry "userValue"
        else if jsStrictEq (objGet entry "type") (.str "json") && !isJsString newValue then
          alistSet entry "userValue" (jsonStringify newValue)
        else
          alistSet entry "userValue" newValue
      .ok ({ st1 with cache := alistSet st1.cache key entry1 },
           { key := key, newValue := newValue, oldValue := oldValue })

/-- `defaultsDeep` at field level: fields of `dst` take precedence, `src`
fills in absent or `undefined` fields. -/
def objDefaultsDeep (dst src : JsObj) : JsObj :=
  (dst.map (fun p => (p.1, if p.2 = .undefined then objGet src p.1 else p.2))) ++
    src.filter (fun p => !objHas dst p.1)

/-- `defaultsDeep({}, a, b)` over the two-level cache shape: per-key deep
merge where `a`'s entries take precedence and `b` fills in the rest. -/
def cacheDefaultsDeep (a b : List (String × JsObj)) : List (String × JsObj) :=
  (a.map (fun p => (p.1, objDefaultsDeep p.2 ((alistGet? b p.1).getD [])))) ++
    b.filter (fun p => (alistGet? a p.1).isNone)

/-- Constructor: `_defaults = cloneDeep(defaults)`;
`_cache = defaultsDeep({}, _defaults, cloneDeep(initialSettings))` (value
semantics make the clones identities in the model). -/
def mkClient (defaults initialSettings : List (String × JsObj)) : ClientState :=
  { defaults := defaults, cache := cacheDefaultsDeep defaults initialSettings }

/-- The outcome of the remote `_api.batchSet` call: the `settings` snapshot
of a resolved response, or a rejection. -/
abbrev ApiOutcome := Except Unit (List (String × JsObj))

deriving instance DecidableEq for Except

/-- Everything observable about one `_update` call: the final state, the
resolved boolean or thrown error, the observer broadcasts in order, the
number of `_notify.error` calls, and whether `batchSet` was reached. -/
structure UpdateResult where
  state : ClientState
  returned : Except JsErr Bool
  broadcasts : List Broadcast
  errors : Nat
  apiCalled : Bool
deriving DecidableEq, Repr

/-- `oldVal` of `_update`: `declared ? this._cache[key].userValue : undefined`. -/
def updateOldVal (st : ClientState) (key : String) : Val :=
  if isDeclared st key then objGet (cacheEntry st key) "userValue" else .undefined

/-- `newVal` of `_update`:
`key in defaults && defaults[key].defaultValue === value ? null : value`.
(The entry's declared default is stored under the field name `value`; the
field `defaultValue` read here is written nowhere in the class.) -/
def updateNewVal (st : ClientState) (key : String) (value : Val) : Val :=
  if (alistGet? st.defaults key).isSome
      && jsStrictEq (objGet (defaultsEntry st key) "defaultValue") value
  then .null else value

/-- `_update(key, value)` against a given `batchSet` outcome. -/
def update (st : ClientState) (key : String) (value : Val) (api : ApiOutcome) : UpdateResult :=
  if isOverridden st key then
    -- assertUpdateAllowed throws
    { state := st, returned := .error .overriddenSetting, broadcasts := [],
      errors := 0, apiCalled := false }
  else
    let declared := isDeclared st key
    let oldVal := updateOldVal st key
    let newVal := updateNewVal st key value
    if jsStrictEq oldVal newVal then
      { state := st, returned := .ok true, broadcasts := [], errors := 0, apiCalled := false }
    else
      match (if declared then getSetting st key .undefined else .ok .undefined : Except JsErr Val) with
      | .error e =>
        -- `initialVal = this.get(key)` threw before any local mutation
        { state := st, returned := .error e, broadcasts := [], errors := 0, apiCalled := false }
      | .ok initialVal =>
        match setLocally st key newVal with
        | .error e =>
          { state := st, returned := .error e, broadcasts := [], errors := 0, apiCalled := false }
        | .ok (st1, b1) =>
          match api with
          | .ok settings =>
            { state := { st1 with cache := cacheDefaultsDeep st1.defaults settings },
              returned := .ok true, broadcasts := [b1], errors := 0, apiCalled := true }
          | .error _ =>
            match setLocally st1 key initialVal with
            | .error e =>
              -- the revert threw inside the catch block: `notify.error` is not reached
              { state := st1, returned := .error e, broadcasts := [b1],
                errors := 0, apiCalled := true }
            | .ok (st2, b2) =>
              { state := st2, returned := .ok false, broadcasts := [b1, b2],
                errors := 1, apiCalled := true }

/-- `set(key, val)`. -/
def setSetting (st : ClientState) (key : String) (val : Val) (api : ApiOutcome) : UpdateResult :=
  update st key val api

/-- `remove(key)` = `_update(key, null)`. -/
def removeSetting (st : ClientState) (key : String) (api : ApiOutcome) : UpdateResult :=
  update st key .null api

/-- `overrideLocalDefault(key, newDefault)`: rewrites the `value` field of
both `_defaults[key]` and `_cache[key]` (spreading the existing entry or
`{}`), and broadcasts only when the updated cache entry has no user
override (`userValue == null`). Purely local: there is no api argument
because the method performs no network call. -/
def overrideLocalDefault (st : ClientState) (key : String) (newDefault : Val) :
    ClientState × List Broadcast :=
  let prevDefault :=
    match alistGet? st.defaults key with
    | some dk => objGet dk "value"
    | none => .undefined
  let newDefaultsEntry := alistSet ((alistGet? st.defaults key).getD []) "value" newDefault
  let newCacheEntry := alistSet ((alistGet? st.cache key).getD []) "value" newDefault
  let st1 : ClientState :=
    { defaults := alistSet st.defaults key newDefaultsEntry,
      cache := alistSet st.cache key newCacheEntry }
  if jsEqNull (objGet newCacheEntry "userValue") then
    (st1, [{ key := key, newValue := newDefault, oldValue := prevDefault }])
  else
    (st1, [])

/-! ## The context-menu builder

`buildEuiContextMenuPanels` recurses through `action.childContextMenuPanel`
while re-filtering the same flat action list by `parentPanelId`, so nothing
in the input shrinks structurally and a cyclic id graph makes the TS
function recurse forever. The embedding therefore takes a fuel argument:
`none` means the recursion depth exceeded the fuel. The types are
parametric in the opaque collaborator types `E` (`Embeddable`) and `CS`
(`ContainerState`); `onClick` and the rendered content are out of the
projection's observable output (`content` is modelled as the optional
string `getContent` returns). -/

/-- The `{embeddable, containerState}` record threaded through
`isVisible` / `isDisabled` / `getContent`. -/
structure ActionCtx (E CS : Type) where
  embeddable : Option E
  containerState : CS

/-- `DashboardContextMenuPanel`. -/
structure DashboardContextMenuPanel (E CS : Type) where
  id : String
  title : String
  getContent : ActionCtx E CS → Option String

/-- `DashboardPanelAction` (the `onClick` effect is not part of the
projection's observable output and is omitted). -/
structure DashboardPanelAction (E CS : Type) where
  id : String
  parentPanelId : String
  displayName : String
  icon : Option String
  childContextMenuPanel : Option (DashboardContextMenuPanel E CS)
  isVisible : ActionCtx E CS → Bool
  isDisabled : ActionCtx E CS → Bool

/-- `EuiContextMenuPanelItemDescriptor` (minus the `onClick` closure). -/
structure EuiContextMenuPanelItemDescriptor where
  name : String
  icon : Option String
  panel : Option String
  disabled : Bool
  dataTestSubj : String
deriving DecidableEq, Repr

/-- `EuiContextMenuPanelDescriptor`. -/
structure EuiContextMenuPanelDescriptor where
  id : String
  title : String
  items : List EuiContextMenuPanelItemDescriptor
  content : Option String
deriving DecidableEq, Repr

/-- `getActionsForPanel`: the actions whose `parentPanelId` is the given id. -/
def getActionsForPanel {E CS : Type} (contextMenuPanelId : String)
    (allActions : List (DashboardPanelAction E CS)) : List (DashboardPanelAction E CS) :=
  allActions.filter (fun action => action.parentPanelId == contextMenuPanelId)

/-- `convertPanelActionToContextMenuItem`. -/
def convertPanelActionToContextMenuItem {E CS : Type} (action : DashboardPanelAction E CS)
    (ctx : ActionCtx E CS) : EuiContextMenuPanelItemDescriptor :=
  { name := action.displayName
    icon := action.icon
    panel := action.childContextMenuPanel.map (·.id)
    disabled := action.isDisabled ctx
    dataTestSubj := "dashboardPanelAction-" ++ action.id }

/-- The `actionsForPanel.forEach` loop of
`buildEuiContextMenuPanelItemsAndChildPanels`, abstracted over the
recursive call (`recur c` builds the panels of child panel `c`): invisible
actions are skipped entirely; a visible action first appends its child
panels (if it declares a child) and then its converted item. -/
def buildItemsLoop {E CS : Type} (recur : DashboardContextMenuPanel E CS →
      Option (List EuiContextMenuPanelDescriptor)) (ctx : ActionCtx E CS) :
    List (DashboardPanelAction E CS) →
      Option (List EuiContextMenuPanelItemDescriptor × List EuiContextMenuPanelDescriptor)
  | [] => some ([], [])
  | action :: rest =>
    if !action.isVisible ctx then buildItemsLoop recur ctx rest
    else
      let childOpt : Option (List EuiContextMenuPanelDescriptor) :=
        match action.childContextMenuPanel with
        | none => some []
        | some child => recur child
      match childOpt, buildItemsLoop recur ctx rest with
      | some childPanels, some (items, panels) =>
        some (convertPanelActionToContextMenuItem action ctx :: items, childPanels ++ panels)
      | _, _ => none

/-- `buildEuiContextMenuPanels` with fuel: builds the current panel's
descriptor, then `[current] ++ childPanels`. Runs out of fuel (`none`) on
recursion deeper than `fuel`. -/
def buildEuiContextMenuPanels {E CS : Type} :
    Nat → DashboardContextMenuPanel E CS → List (DashboardPanelAction E CS) →
      ActionCtx E CS → Option (List EuiContextMenuPanelDescriptor)
  | 0, _, _, _ => none
  | fuel + 1, contextMenuPanel, actions, ctx =>
    match buildItemsLoop (fun child => buildEuiContextMenuPanels fuel child actions ctx) ctx
        (getActionsForPanel contextMenuPanel.id actions) with
    | none => none
    | some (items, childPanels) =>
      some ({ id := contextMenuPanel.id, title := contextMenuPanel.title, items := items,
              content := contextMenuPanel.getContent ctx } :: childPanels)

/-- The child panels declared by the visible actions of a panel, in action
iteration order, once per occurrence. -/
def visibleChildPanels {E CS : Type} (panel : DashboardContextMenuPanel E CS)
    (actions : List (DashboardPanelAction E CS)) (ctx : ActionCtx E CS) :
    List (DashboardContextMenuPanel E CS) :=
  ((getActionsForPanel panel.id actions).filter (fun a => a.isVisible ctx)).filterMap
    (·.childContextMenuPanel)

/-- Per-occurrence count, across the whole projection, of visible actions
that declare a child panel (each such occurrence spawns one recursive
subtree). Same fuel discipline as the builder. -/
def visibleChildOccurrences {E CS : Type} :
    Nat → DashboardContextMenuPanel E CS → List (DashboardPanelAction E CS) →
      ActionCtx E CS → Option Nat
  | 0, _, _, _ => none
  | fuel + 1, panel, actions, ctx =>
    (visibleChildPanels panel actions ctx).foldr
      (fun child acc =>
        match visibleChildOccurrences fuel child actions ctx, acc with
        | some a, some b => some (1 + a + b)
        | _, _ => none)
      (some 0)

/-- One edge of the child-panel reachability graph: some visible action of
panel `p` declares child panel `q`. -/
def childStep {E CS : Type} (actions : List (DashboardPanelAction E CS)) (ctx : ActionCtx E CS)
    (p q : DashboardContextMenuPanel E CS) : Prop :=
  ∃ a ∈ actions, a.parentPanelId = p.id ∧ a.isVisible ctx = true ∧
    a.childContextMenuPanel = some q

/-! ## Helper lemmas about the settings client -/

theorem alistDelete_alistSet_same {α : Type} (l : List (String × α)) (key : String) (v : α) :
    alistDelete (alistSet l key v) key = alistDelete l key := by
  induction l with
  | nil => simp [alistSet, alistDelete]
  | cons p rest ih =>
    obtain ⟨k, w⟩ := p
    by_cases h : k = key <;> simp_all [alistSet, alistDelete, h]

/-- `jsStrictEq` facts used as rewrite rules. -/
@[simp] theorem jsStrictEq_undefined_undefined : jsStrictEq .undefined .undefined = true := rfl

/-- The raw current value `get` selects for a declared key called with no
fallback, before type conversion. -/
def currentRaw (st : ClientState) (key : String) : Val :=
  if isDefault st key then objGet (cacheEntry st key) "value"
  else objGet (cacheEntry st key) "userValue"

theorem getSetting_of_nonjson (st : ClientState) (key : String)
    (hdecl : isDeclared st key = true)
    (htype : jsStrictEq (objGet (cacheEntry st key) "type") (.str "json") = false) :
    getSetting st key .undefined =
      .ok (if jsStrictEq (objGet (cacheEntry st key) "type") (.str "number") = true
           then jsParseFloat (currentRaw st key) else currentRaw st key) := by
  unfold getSetting currentRaw
  simp only [hdecl, Bool.not_true, Bool.false_eq_true, if_false, htype,
    jsStrictEq_undefined_undefined, if_true]
  split <;> rfl

/-- The cache entry resulting from the write step of `_setLocally` on a
non-json entry `e`: write of `null` deletes the override, any other value
is stored raw. -/
def writtenEntry (e : JsObj) (w : Val) : JsObj :=
  if jsStrictEq w .null then alistDelete e "userValue" else alistSet e "userValue" w

/-- A `_setLocally` write on a declared, non-overridden, non-json key
succeeds and replaces the key's entry by `writtenEntry`. -/
theorem setLocally_nonjson (st : ClientState) (key : String) (w : Val)
    (hdecl : isDeclared st key = true)
    (hov : isOverridden st key = false)
    (htype : jsStrictEq (objGet (cacheEntry st key) "type") (.str "json") = false) :
    ∃ b : Broadcast, setLocally st key w =
      .ok ({ st with cache := alistSet st.cache key (writtenEntry (cacheEntry st key) w) }, b) := by
  unfold setLocally writtenEntry
  rw [hov]
  simp only [hdecl, Bool.not_true, Bool.false_eq_true, if_false,
    getSetting_of_nonjson st key hdecl htype, htype, Bool.false_and]
  exact ⟨_, rfl⟩

theorem objGet_writtenEntry_other (e : JsObj) (w : Val) (f : String) (hf : "userValue" ≠ f) :
    objGet (writtenEntry e w) f = objGet e f := by
  unfold writtenEntry
  split
  · exact objGet_objDelete_other e "userValue" f hf
  · exact objGet_objSet_other e "userValue" f w hf

theorem objGet_writtenEntry_user (e : JsObj) (w : Val) :
    objGet (writtenEntry e w) "userValue" =
      if jsStrictEq w .null = true then .undefined else w := by
  unfold writtenEntry
  split <;> simp_all [objGet_objDelete_same, objGet_objSet_same]

theorem jsParseFloat_strictEq_null (v : Val) : jsStrictEq (jsParseFloat v) .null = false := by
  cases v <;> try rfl
  rename_i s
  show jsStrictEq (jsParseFloat (.str s)) .null = false
  rcases h : parseIntPrefix s with _ | n <;> simp [jsParseFloat, h, jsStrictEq]

theorem jsParseFloat_not_nullish (v : Val) : jsEqNull (jsParseFloat v) = false := by
  cases v <;> try rfl
  rename_i s
  show jsEqNull (jsParseFloat (.str s)) = false
  rcases h : parseIntPrefix s with _ | n <;> simp [jsParseFloat, h, jsEqNull]

/-- Value-level statement of the revert round trip for a non-json key:
writing back the previously read effective value (`iv`) yields a state
whose effective value reads back as `iv` again. `d` is the entry's
declared default (`value` field), `u` its stored `userValue`, `isnum`
whether the entry is `'number'`-typed. -/
theorem revert_value_roundtrip (d u cv iv u2 cv2 : Val) (isnum : Bool)
    (hcv : cv = if jsEqNull u = true then d else u)
    (hiv : iv = if isnum = true then jsParseFloat cv else cv)
    (hu2 : u2 = if jsStrictEq iv .null = true then Val.undefined else iv)
    (hcv2 : cv2 = if jsEqNull u2 = true then d else u2) :
    (if isnum = true then jsParseFloat cv2 else cv2) = iv := by
  subst hcv hiv hu2 hcv2
  cases isnum
  · simp only [Bool.false_eq_true, if_false]
    cases u <;> cases d <;> rfl
  · simp [jsParseFloat_strictEq_null, jsParseFloat_not_nullish, jsParseFloat_idem]

theorem cacheEntry_after_set (st : ClientState) (key : String) (e1 : JsObj) :
    cacheEntry { st with cache := alistSet st.cache key e1 } key = e1 := by
  simp [cacheEntry, alistGet?_alistSet_same]

theorem isDeclared_after_set (st : ClientState) (key : String) (e1 : JsObj) :
    isDeclared { st with cache := alistSet st.cache key e1 } key = true := by
  simp [isDeclared, alistGet?_alistSet_same]

theorem alistSet_alistSet {α : Type} (l : List (String × α)) (key : String) (a b : α) :
    alistSet (alistSet l key a) key b = alistSet l key b := by
  induction l with
  | nil => simp [alistSet]
  | cons p rest ih =>
    obtain ⟨k, w⟩ := p
    by_cases h : k = key <;> simp_all [alistSet, h]

/-- The value a no-fallback `get` observes on a declared non-json key
(`currentRaw`, parsed by `parseFloat` for `'number'`-typed keys). -/
def readValue (st : ClientState) (key : String) : Val :=
  if jsStrictEq (objGet (cacheEntry st key) "type") (.str "number") = true
  then jsParseFloat (currentRaw st key) else currentRaw st key

/-- Reading back a declared, non-json key after the two cache writes of a
failed update (the optimistic write of `wv`, then the revert write of the
initially read value) observes the initially read value again. -/
theorem getSetting_after_revert (st : ClientState) (key : String) (wv : Val)
    (hdecl : isDeclared st key = true)
    (htype : jsStrictEq (objGet (cacheEntry st key) "type") (.str "json") = false) :
    getSetting { st with cache := alistSet st.cache key (writtenEntry (writtenEntry (cacheEntry st key) wv) (readValue st key)) } key .undefined = .ok (readValue st key) := by
  have hcv : currentRaw st key =
      if jsEqNull (objGet (cacheEntry st key) "userValue") = true
      then objGet (cacheEntry st key) "value" else objGet (cacheEntry st key) "userValue" := by
    unfold currentRaw isDefault
    rw [hdecl]
    simp only [Bool.not_true, Bool.false_or]
  have hIV : readValue st key =
      if jsStrictEq (objGet (cacheEntry st key) "type") (.str "number") = true
      then jsParseFloat (currentRaw st key) else currentRaw st key := rfl
  have hdecl2 := isDeclared_after_set st key (writtenEntry (writtenEntry (cacheEntry st key) wv) (readValue st key))
  have hentry2 := cacheEntry_after_set st key (writtenEntry (writtenEntry (cacheEntry st key) wv) (readValue st key))
  have htype2 : jsStrictEq (objGet (cacheEntry { st with cache := alistSet st.cache key (writtenEntry (writtenEntry (cacheEntry st key) wv) (readValue st key)) } key) "type") (.str "json") = false := by
    rw [hentry2, objGet_writtenEntry_other _ _ _ (by decide),
      objGet_writtenEntry_other _ _ _ (by decide)]
    exact htype
  rw [getSetting_of_nonjson _ key hdecl2 htype2]
  congr 1
  have htypeField : objGet (cacheEntry { st with cache := alistSet st.cache key (writtenEntry (writtenEntry (cacheEntry st key) wv) (readValue st key)) } key) "type" = objGet (cacheEntry st key) "type" := by
    rw [hentry2, objGet_writtenEntry_other _ _ _ (by decide),
      objGet_writtenEntry_other _ _ _ (by decide)]
  rw [htypeField]
  apply revert_value_roundtrip (objGet (cacheEntry st key) "value")
    (objGet (cacheEntry st key) "userValue") (currentRaw st key) (readValue st key)
    (objGet (cacheEntry { st with cache := alistSet st.cache key (writtenEntry (writtenEntry (cacheEntry st key) wv) (readValue st key)) } key) "userValue")
    _ _ hcv hIV
  · rw [hentry2, objGet_writtenEntry_user]
  · unfold currentRaw isDefault
    rw [hdecl2, hentry2, objGet_writtenEntry_user,
      objGet_writtenEntry_other _ _ _ (by decide),
      objGet_writtenEntry_other _ _ _ (by decide)]
    simp only [Bool.not_true, Bool.false_or]

/-- C2 (amended): for a declared, non-server-overridden key whose declared
`type` is not `'json'`, a `set(key, v)` that reaches the network
(`oldVal !== newVal`) and whose `batchSet` rejects resolves to `false`
without throwing, reports exactly one error to the notifier, and leaves
`get(key)` observing the same value as before the call. -/
theorem set_reverts_on_api_failure (st : ClientState) (key : String) (v : Val)
    (hdecl : isDeclared st key = true)
    (hov : isOverridden st key = false)
    (htype : jsStrictEq (objGet (cacheEntry st key) "type") (.str "json") = false)
    (hch : jsStrictEq (updateOldVal st key) (updateNewVal st key v) = false) :
    (setSetting st key v (.error ())).returned = .ok false ∧
    (setSetting st key v (.error ())).errors = 1 ∧
    (setSetting st key v (.error ())).apiCalled = true ∧
    getSetting (setSetting st key v (.error ())).state key .undefined = getSetting st key .undefined := by
  -- the optimistic write
  obtain ⟨b1, hset1⟩ := setLocally_nonjson st key (updateNewVal st key v) hdecl hov htype
  -- facts about the optimistic state st1
  have hdecl1 := isDeclared_after_set st key (writtenEntry (cacheEntry st key) (updateNewVal st key v))
  have hentry1 := cacheEntry_after_set st key (writtenEntry (cacheEntry st key) (updateNewVal st key v))
  have htype1 : jsStrictEq (objGet (cacheEntry { st with cache := alistSet st.cache key (writtenEntry (cacheEntry st key) (updateNewVal st key v)) } key) "type") (.str "json") = false := by
    rw [hentry1, objGet_writtenEntry_other _ _ _ (by decide)]
    exact htype
  have hov1 : isOverridden { st with cache := alistSet st.cache key (writtenEntry (cacheEntry st key) (updateNewVal st key v)) } key = false := by
    unfold isOverridden at hov ⊢
    rw [hdecl1, hentry1, objGet_writtenEntry_other _ _ _ (by decide)]
    rw [hdecl] at hov
    simpa using hov
  -- the value read before the write
  have hiv : getSetting st key .undefined = .ok (readValue st key) :=
    getSetting_of_nonjson st key hdecl htype
  -- the revert write
  obtain ⟨b2, hset2⟩ := setLocally_nonjson _ key (readValue st key) hdecl1 hov1 htype1
  -- drive the update function through its branches
  unfold setSetting update
  simp only [hov, hch, hdecl, Bool.false_eq_true, if_false, if_true, hiv, hset1, hset2]
  refine ⟨trivial, trivial, trivial, ?_⟩
  simp only [hentry1, alistSet_alistSet]
  exact getSetting_after_revert st key (updateNewVal st key v) hdecl htype

/-! ## Concrete client states used as witnesses and counterexamples -/

/-- A declared, non-overridden, untyped key `"k"` with declared default
`"x"` and no user override. -/
def defaultedState : ClientState :=
  { defaults := [("k", [("value", .str "x")])],
    cache := [("k", [("value", .str "x")])] }

/-- A declared, non-overridden, untyped key `"k"` with declared default
`"d"` and user override `"u"`. -/
def overriddenValueState : ClientState :=
  { defaults := [("k", [("value", .str "d")])],
    cache := [("k", [("value", .str "d"), ("userValue", .str "u")])] }

/-- A declared `'json'`-typed key `"k"` whose stored user override is the
JSON text of a string (`'"a"'`). -/
def jsonStringState : ClientState :=
  { defaults := [("k", [("value", .str "1"), ("type", .str "json")])],
    cache := [("k", [("value", .str "1"), ("type", .str "json"), ("userValue", .str "\"a\"")])] }

/-- A server-overridden key `"k"`. -/
def serverLockedState : ClientState :=
  { defaults := [("k", [("value", .str "d")])],
    cache := [("k", [("value", .str "d"), ("isOverridden", .jsBool true)])] }

/-- C1 (code bug): `set(key, declaredDefault)` does not collapse to "no
override". `_update` compares the requested value against
`defaults[key].defaultValue`, a field no code path ever writes — the
declared default lives under `value` (read by `get`, written by
`overrideLocalDefault`) — so `newVal` stays `"x"` instead of `null`, the
client stores a user override equal to the default, and `isDefault(key)`
is `false` afterwards even though `get(key)` still returns the default. -/
theorem set_declared_default_stores_override :
    objGet (defaultsEntry defaultedState "k") "value" = .str "x" ∧
    objGet (defaultsEntry defaultedState "k") "defaultValue" = .undefined ∧
    updateNewVal defaultedState "k" (.str "x") = .str "x" ∧
    (setSetting defaultedState "k" (.str "x") (.ok [("k", [("userValue", .str "x")])])).returned = .ok true ∧
    getSetting (setSetting defaultedState "k" (.str "x") (.ok [("k", [("userValue", .str "x")])])).state "k" .undefined = .ok (.str "x") ∧
    isDefault (setSetting defaultedState "k" (.str "x") (.ok [("k", [("userValue", .str "x")])])).state "k" = false ∧
    objGet (cacheEntry (setSetting defaultedState "k" (.str "x") (.ok [("k", [("userValue", .str "x")])])).state "k") "userValue" = .str "x" := by
  decide

/-- C2 witness: concrete instance of `set_reverts_on_api_failure` on a
plain string key with an existing override. -/
theorem set_reverts_on_api_failure_witness :
    (setSetting overriddenValueState "k" (.str "w") (.error ())).returned = .ok false ∧
    (setSetting overriddenValueState "k" (.str "w") (.error ())).errors = 1 ∧
    (setSetting overriddenValueState "k" (.str "w") (.error ())).apiCalled = true ∧
    getSetting (setSetting overriddenValueState "k" (.str "w") (.error ())).state "k" .undefined = getSetting overriddenValueState "k" .undefined :=
  set_reverts_on_api_failure overriddenValueState "k" (.str "w") (by decide) (by decide)
    (by decide) (by decide)

/-- C2 counterexample: on a `'json'`-typed key whose stored override parses
to a JSON string, a failed `set` does not fully revert the observable
value — the revert stores the parsed string (`"a"`) raw, and the post-call
`get` throws a JSON syntax error instead of returning the pre-call value. -/
theorem set_revert_fails_for_json_string_value :
    isDeclared jsonStringState "k" = true ∧
    isOverridden jsonStringState "k" = false ∧
    getSetting jsonStringState "k" .undefined = .ok (.str "a") ∧
    (setSetting jsonStringState "k" (.str "2") (.error ())).returned = .ok false ∧
    getSetting (setSetting jsonStringState "k" (.str "2") (.error ())).state "k" .undefined = .error .jsonSyntax ∧
    getSetting (setSetting jsonStringState "k" (.str "2") (.error ())).state "k" .undefined ≠ getSetting jsonStringState "k" .undefined := by
  decide

/-- C3 counterexample: for a key in the default state, `set(key, v)` with
`v` equal to the current effective value (`get(key)`) is *not* a no-op:
`oldVal` is `undefined` while `newVal` is not, so the client mutates the
cache, notifies observers twice (write + revert here), and reaches the
network (shown by the rejecting api making it resolve `false`). -/
theorem set_of_current_effective_value_not_noop :
    getSetting defaultedState "k" .undefined = .ok (.str "x") ∧
    (setSetting defaultedState "k" (.str "x") (.error ())).apiCalled = true ∧
    (setSetting defaultedState "k" (.str "x") (.error ())).broadcasts.length = 2 ∧
    (setSetting defaultedState "k" (.str "x") (.error ())).returned = .ok false ∧
    (setSetting defaultedState "k" (.str "x") (.error ())).state ≠ defaultedState := by
  decide

/-- C3 (amended): the no-op condition of `_update` is equality of the
computed new stored value with the currently stored `userValue`
(`oldVal === newVal`), not equality with the effective `get` value. When it
holds (for instance: a user-overridden key set to exactly its stored
override), `set` resolves `true` with no api call, no state change, no
broadcast and no error. -/
theorem set_noop_iff_stored_value_unchanged (st : ClientState) (key : String) (v : Val)
    (api : ApiOutcome) (hov : isOverridden st key = false)
    (h : jsStrictEq (updateOldVal st key) (updateNewVal st key v) = true) :
    setSetting st key v api =
      { state := st, returned := .ok true, broadcasts := [], errors := 0, apiCalled := false } := by
  unfold setSetting update
  simp only [hov, h, Bool.false_eq_true, if_false, if_true]

/-- C3 witness: a user-overridden key set to its stored override value is a
no-op (and the override equals the effective value here). -/
theorem set_noop_iff_stored_value_unchanged_witness :
    isOverridden overriddenValueState "k" = false ∧
    jsStrictEq (updateOldVal overriddenValueState "k") (updateNewVal overriddenValueState "k" (.str "u")) = true ∧
    getSetting overriddenValueState "k" .undefined = .ok (.str "u") ∧
    setSetting overriddenValueState "k" (.str "u") (.error ()) =
      { state := overriddenValueState, returned := .ok true, broadcasts := [], errors := 0, apiCalled := false } :=
  ⟨by decide, by decide, by decide,
    set_noop_iff_stored_value_unchanged overriddenValueState "k" (.str "u") (.error ())
      (by decide) (by decide)⟩

/-- C4: on a server-overridden key, both `set` and `remove` throw
`OverriddenSettingError` synchronously, before the api is reached, with no
broadcast, no notifier error, and an unchanged cache. -/
theorem overridden_key_mutation_rejected (st : ClientState) (key : String) (v : Val)
    (api : ApiOutcome) (h : isOverridden st key = true) :
    setSetting st key v api =
      { state := st, returned := .error .overriddenSetting, broadcasts := [],
        errors := 0, apiCalled := false } ∧
    removeSetting st key api =
      { state := st, returned := .error .overriddenSetting, broadcasts := [],
        errors := 0, apiCalled := false } := by
  constructor
  · unfold setSetting update
    simp only [h, if_true]
  · unfold removeSetting update
    simp only [h, if_true]

/-- C4 witness: concrete server-locked key. -/
theorem overridden_key_mutation_rejected_witness :
    setSetting serverLockedState "k" (.str "w") (.ok []) =
      { state := serverLockedState, returned := .error .overriddenSetting, broadcasts := [],
        errors := 0, apiCalled := false } ∧
    removeSetting serverLockedState "k" (.ok []) =
      { state := serverLockedState, returned := .error .overriddenSetting, broadcasts := [],
        errors := 0, apiCalled := false } :=
  overridden_key_mutation_rejected serverLockedState "k" (.str "w") (.ok []) (by decide)

/-- C5: `get` on an undeclared key throws `UnrecognizedSettingError` when
called without a fallback, and returns any defined (non-`undefined`)
fallback without throwing. -/
theorem get_undeclared_key (st : ClientState) (key : String)
    (h : isDeclared st key = false) :
    getSetting st key .undefined = .error .unrecognizedSetting ∧
    ∀ fb : Val, jsStrictEq fb .undefined = false → getSetting st key fb = .ok fb := by
  constructor
  · unfold getSetting
    simp [h]
  · intro fb hfb
    unfold getSetting
    simp [h, hfb]

/-- C5 witness: an empty client. -/
theorem get_undeclared_key_witness :
    getSetting { defaults := [], cache := [] } "k" .undefined = .error .unrecognizedSetting ∧
    getSetting { defaults := [], cache := [] } "k" (.str "fb") = .ok (.str "fb") :=
  ⟨(get_undeclared_key { defaults := [], cache := [] } "k" rfl).1,
    (get_undeclared_key { defaults := [], cache := [] } "k" rfl).2 (.str "fb") rfl⟩

theorem cacheEntry_mk_set (D : List (String × JsObj)) (C : List (String × JsObj))
    (key : String) (e1 : JsObj) :
    cacheEntry { defaults := D, cache := alistSet C key e1 } key = e1 := by
  simp [cacheEntry, alistGet?_alistSet_same]

theorem defaultsEntry_mk_set (D : List (String × JsObj)) (C : List (String × JsObj))
    (key : String) (e1 : JsObj) :
    defaultsEntry { defaults := alistSet D key e1, cache := C } key = e1 := by
  simp [defaultsEntry, alistGet?_alistSet_same]

/-- C9: `overrideLocalDefault(key, newDefault)` rewrites the declared
default (`value` field) of both `_defaults[key]` and `_cache[key]`, leaves
the key's `userValue` and every other key untouched, and broadcasts
`{key, newValue := newDefault, oldValue := previous default}` exactly when
no user override shadows the default (`userValue == null`). The method has
no api parameter in the model because its code performs no network call. -/
theorem overrideLocalDefault_rebaselines (st : ClientState) (key : String) (v : Val) :
    objGet (cacheEntry (overrideLocalDefault st key v).1 key) "value" = v ∧
    objGet (defaultsEntry (overrideLocalDefault st key v).1 key) "value" = v ∧
    objGet (cacheEntry (overrideLocalDefault st key v).1 key) "userValue" = objGet (cacheEntry st key) "userValue" ∧
    alistDelete (overrideLocalDefault st key v).1.cache key = alistDelete st.cache key ∧
    alistDelete (overrideLocalDefault st key v).1.defaults key = alistDelete st.defaults key ∧
    (overrideLocalDefault st key v).2 =
      (if jsEqNull (objGet (cacheEntry st key) "userValue") = true
       then [{ key := key, newValue := v, oldValue := objGet (defaultsEntry st key) "value" }]
       else []) := by
  have huser : objGet (alistSet ((alistGet? st.cache key).getD []) "value" v) "userValue" =
      objGet (cacheEntry st key) "userValue" := by
    rw [objGet_objSet_other _ _ _ _ (by decide)]
    rfl
  have hprev : (match alistGet? st.defaults key with
      | some dk => objGet dk "value"
      | none => Val.undefined) = objGet (defaultsEntry st key) "value" := by
    rcases hd : alistGet? st.defaults key with _ | dk <;>
      simp [defaultsEntry, hd, objGet]
  unfold overrideLocalDefault
  simp only [hprev, huser]
  split
  case isTrue hca =>
    refine ⟨?_, ?_, ?_, ?_, ?_, ?_⟩ <;> dsimp only
    · rw [cacheEntry_mk_set, objGet_objSet_same]
    · rw [defaultsEntry_mk_set, objGet_objSet_same]
    · rw [cacheEntry_mk_set]
      exact huser
    · exact alistDelete_alistSet_same _ _ _
    · exact alistDelete_alistSet_same _ _ _
  case isFalse hca =>
    refine ⟨?_, ?_, ?_, ?_, ?_, ?_⟩ <;> dsimp only
    · rw [cacheEntry_mk_set, objGet_objSet_same]
    · rw [defaultsEntry_mk_set, objGet_objSet_same]
    · rw [cacheEntry_mk_set]
      exact huser
    · exact alistDelete_alistSet_same _ _ _
    · exact alistDelete_alistSet_same _ _ _

/-! ## Lemmas about the context-menu builder -/

theorem getActionsForPanel_filter_visible {E CS : Type} (pid : String)
    (actions : List (DashboardPanelAction E CS)) (ctx : ActionCtx E CS) :
    getActionsForPanel pid (actions.filter (fun a => a.isVisible ctx)) =
      (getActionsForPanel pid actions).filter (fun a => a.isVisible ctx) := by
  unfold getActionsForPanel
  simp [List.filter_filter, Bool.and_comm]

/-- Invisible actions are skipped by the items loop, so pre-filtering them
away changes nothing. -/
theorem buildItemsLoop_filter_visible {E CS : Type}
    (recur : DashboardContextMenuPanel E CS → Option (List EuiContextMenuPanelDescriptor))
    (ctx : ActionCtx E CS) (l : List (DashboardPanelAction E CS)) :
    buildItemsLoop recur ctx (l.filter (fun a => a.isVisible ctx)) =
      buildItemsLoop recur ctx l := by
  induction l with
  | nil => rfl
  | cons a rest ih =>
    by_cases h : a.isVisible ctx = true
    · simp only [List.filter_cons, h, if_true, buildItemsLoop, Bool.not_true,
        Bool.false_eq_true, if_false, ih]
    · have h' : a.isVisible ctx = false := by
        revert h
        cases a.isVisible ctx <;> simp
      simp only [List.filter_cons, h', Bool.false_eq_true, if_false, buildItemsLoop,
        Bool.not_false, if_true, ih]

/-- The items loop only uses `recur` pointwise. -/
theorem buildItemsLoop_congr {E CS : Type}
    (recur recur' : DashboardContextMenuPanel E CS → Option (List EuiContextMenuPanelDescriptor))
    (ctx : ActionCtx E CS) (l : List (DashboardPanelAction E CS))
    (h : ∀ c, recur c = recur' c) :
    buildItemsLoop recur ctx l = buildItemsLoop recur' ctx l := by
  induction l with
  | nil => rfl
  | cons a rest ih =>
    unfold buildItemsLoop
    rw [ih]
    cases a.childContextMenuPanel <;> simp [h]

/-- C6: an action whose `isVisible` returns `false` contributes nothing to
the projection: erasing every invisible action from the input changes
neither the items nor the produced panels, at every recursion depth, even
when invisible actions declare child panels. -/
theorem buildEuiContextMenuPanels_drops_invisible {E CS : Type} (fuel : Nat)
    (panel : DashboardContextMenuPanel E CS) (actions : List (DashboardPanelAction E CS))
    (ctx : ActionCtx E CS) :
    buildEuiContextMenuPanels fuel panel (actions.filter (fun a => a.isVisible ctx)) ctx =
      buildEuiContextMenuPanels fuel panel actions ctx := by
  induction fuel generalizing panel with
  | zero => rfl
  | succ fuel ih =>
    unfold buildEuiContextMenuPanels
    rw [getActionsForPanel_filter_visible, buildItemsLoop_filter_visible,
      buildItemsLoop_congr _ _ ctx _ (fun c => ih c)]

/-- Decomposition of a successful items loop: the produced child panels are
the concatenation, in action-iteration order and once per occurrence, of
one recursive result per visible child-declaring action. -/
theorem buildItemsLoop_structure {E CS : Type}
    (recur : DashboardContextMenuPanel E CS → Option (List EuiContextMenuPanelDescriptor))
    (ctx : ActionCtx E CS) (l : List (DashboardPanelAction E CS))
    (items : List EuiContextMenuPanelItemDescriptor)
    (panels : List EuiContextMenuPanelDescriptor)
    (h : buildItemsLoop recur ctx l = some (items, panels)) :
    ∃ subtrees : List (List EuiContextMenuPanelDescriptor),
      List.Forall₂ (fun c sub => recur c = some sub)
        ((l.filter (fun a => a.isVisible ctx)).filterMap (·.childContextMenuPanel)) subtrees ∧
      panels = subtrees.flatten := by
  induction l generalizing items panels with
  | nil =>
    simp only [buildItemsLoop, Option.some_inj, Prod.mk.injEq] at h
    obtain ⟨h1, h2⟩ := h
    subst h1
    subst h2
    exact ⟨[], by simp, by simp⟩
  | cons a rest ih =>
    by_cases hv : a.isVisible ctx = true
    · rcases hc : a.childContextMenuPanel with _ | c
      · rcases hrest : buildItemsLoop recur ctx rest with _ | r
        · rw [buildItemsLoop, hv] at h
          simp [hc, hrest] at h
        · obtain ⟨ritems, rpanels⟩ := r
          rw [buildItemsLoop, hv] at h
          simp only [Bool.not_true, Bool.false_eq_true, if_false, hc, hrest,
            List.nil_append, Option.some_inj, Prod.mk.injEq] at h
          obtain ⟨hitems, hpanels⟩ := h
          obtain ⟨subtrees, hf, hjoin⟩ := ih ritems rpanels hrest
          refine ⟨subtrees, ?_, ?_⟩
          · simpa [List.filter_cons, hv, List.filterMap_cons, hc] using hf
          · simp [← hpanels, hjoin]
      · rcases hchild : recur c with _ | childPanels
        · rw [buildItemsLoop, hv] at h
          simp [hc, hchild] at h
        · rcases hrest : buildItemsLoop recur ctx rest with _ | r
          · rw [buildItemsLoop, hv] at h
            simp [hc, hchild, hrest] at h
          · obtain ⟨ritems, rpanels⟩ := r
            rw [buildItemsLoop, hv] at h
            simp only [Bool.not_true, Bool.false_eq_true, if_false, hc, hchild, hrest,
              Option.some_inj, Prod.mk.injEq] at h
            obtain ⟨hitems, hpanels⟩ := h
            obtain ⟨subtrees, hf, hjoin⟩ := ih ritems rpanels hrest
            refine ⟨childPanels :: subtrees, ?_, ?_⟩
            · simp only [List.filter_cons, hv, if_true, List.filterMap_cons, hc]
              exact List.Forall₂.cons hchild hf
            · simp [← hpanels, hjoin]
    · have hv' : a.isVisible ctx = false := by
        revert hv
        cases a.isVisible ctx <;> simp
      rw [buildItemsLoop, hv'] at h
      simp only [Bool.not_false, if_true] at h
      obtain ⟨subtrees, hf, hjoin⟩ := ih items panels h
      refine ⟨subtrees, ?_, hjoin⟩
      simpa [List.filter_cons, hv'] using hf

/-- Folding the occurrence counter over children related to their built
subtrees: the count is defined and equals the total length of the subtrees,
each subtree contributing one (its root) plus its own occurrence count. -/
theorem occFold_of_forall₂ {E CS : Type} (fuel : Nat)
    (actions : List (DashboardPanelAction E CS)) (ctx : ActionCtx E CS)
    (ih : ∀ (panel : DashboardContextMenuPanel E CS) (out : List EuiContextMenuPanelDescriptor),
      buildEuiContextMenuPanels fuel panel actions ctx = some out →
      ∃ n, visibleChildOccurrences fuel panel actions ctx = some n ∧ out.length = 1 + n)
    (children : List (DashboardContextMenuPanel E CS))
    (subtrees : List (List EuiContextMenuPanelDescriptor))
    (hf : List.Forall₂ (fun c sub => buildEuiContextMenuPanels fuel c actions ctx = some sub)
      children subtrees) :
    ∃ m, (children.foldr (fun child acc =>
        match visibleChildOccurrences fuel child actions ctx, acc with
        | some a, some b => some (1 + a + b)
        | _, _ => none) (some 0)) = some m ∧ subtrees.flatten.length = m := by
  induction hf with
  | nil => exact ⟨0, rfl, rfl⟩
  | @cons c sub children' subtrees' hrel hrest ihf =>
    obtain ⟨m, hm, hlen⟩ := ihf
    obtain ⟨n, hn, hln⟩ := ih _ _ hrel
    refine ⟨1 + n + m, ?_, ?_⟩
    · simp only [List.foldr_cons, hm, hn]
    · simp only [List.flatten_cons, List.length_append, hlen, hln]

/-- A successful projection at fuel `fuel` has a defined per-occurrence
count of visible child-declaring actions and one panel per such occurrence
plus the root. -/
theorem buildEuiContextMenuPanels_length {E CS : Type} :
    ∀ (fuel : Nat) (panel : DashboardContextMenuPanel E CS)
      (actions : List (DashboardPanelAction E CS)) (ctx : ActionCtx E CS)
      (out : List EuiContextMenuPanelDescriptor),
      buildEuiContextMenuPanels fuel panel actions ctx = some out →
      ∃ n, visibleChildOccurrences fuel panel actions ctx = some n ∧ out.length = 1 + n := by
  intro fuel
  induction fuel with
  | zero =>
    intro panel actions ctx out h
    simp [buildEuiContextMenuPanels] at h
  | succ fuel ih =>
    intro panel actions ctx out h
    rw [buildEuiContextMenuPanels] at h
    rcases hloop : buildItemsLoop (fun child => buildEuiContextMenuPanels fuel child actions ctx)
        ctx (getActionsForPanel panel.id actions) with _ | r
    · rw [hloop] at h
      cases h
    · obtain ⟨items, panels⟩ := r
      rw [hloop] at h
      simp only [Option.some_inj] at h
      obtain ⟨subtrees, hf, hjoin⟩ := buildItemsLoop_structure _ ctx _ items panels hloop
      obtain ⟨m, hm, hlen⟩ := occFold_of_forall₂ fuel actions ctx (fun p o hp => ih p actions ctx o hp)
        (visibleChildPanels panel actions ctx) subtrees hf
      refine ⟨m, ?_, ?_⟩
      · rw [visibleChildOccurrences]
        exact hm
      · subst h
        simp only [List.length_cons, hjoin, hlen]
        omega

/-- C7: a successful projection is the current panel's descriptor followed
by each visible child-declaring action's recursively built subtree, in
action-iteration order and once per occurrence (no de-duplication), and the
total panel count is one plus the per-occurrence count of visible
child-declaring actions across the projection. -/
theorem buildEuiContextMenuPanels_preorder {E CS : Type} (fuel : Nat)
    (panel : DashboardContextMenuPanel E CS) (actions : List (DashboardPanelAction E CS))
    (ctx : ActionCtx E CS) (out : List EuiContextMenuPanelDescriptor)
    (h : buildEuiContextMenuPanels (fuel + 1) panel actions ctx = some out) :
    ∃ (items : List EuiContextMenuPanelItemDescriptor)
      (subtrees : List (List EuiContextMenuPanelDescriptor)) (n : Nat),
      List.Forall₂ (fun c sub => buildEuiContextMenuPanels fuel c actions ctx = some sub)
        (visibleChildPanels panel actions ctx) subtrees ∧
      out = { id := panel.id, title := panel.title, items := items,
              content := panel.getContent ctx } :: subtrees.flatten ∧
      visibleChildOccurrences (fuel + 1) panel actions ctx = some n ∧
      out.length = 1 + n := by
  obtain ⟨n, hn, hlen⟩ := buildEuiContextMenuPanels_length (fuel + 1) panel actions ctx out h
  rw [buildEuiContextMenuPanels] at h
  rcases hloop : buildItemsLoop (fun child => buildEuiContextMenuPanels fuel child actions ctx)
      ctx (getActionsForPanel panel.id actions) with _ | r
  · rw [hloop] at h
    cases h
  · obtain ⟨items, panels⟩ := r
    rw [hloop] at h
    simp only [Option.some_inj] at h
    obtain ⟨subtrees, hf, hjoin⟩ := buildItemsLoop_structure _ ctx _ items panels hloop
    exact ⟨items, subtrees, n, hf, by rw [← h, hjoin], hn, hlen⟩

/-- The items loop succeeds when the recursive call succeeds on every
visible declared child. -/
theorem buildItemsLoop_total {E CS : Type}
    (recur : DashboardContextMenuPanel E CS → Option (List EuiContextMenuPanelDescriptor))
    (ctx : ActionCtx E CS) (l : List (DashboardPanelAction E CS))
    (h : ∀ a ∈ l, a.isVisible ctx = true → ∀ c, a.childContextMenuPanel = some c →
      ∃ o, recur c = some o) :
    ∃ r, buildItemsLoop recur ctx l = some r := by
  induction l with
  | nil => exact ⟨([], []), rfl⟩
  | cons a rest ih =>
    obtain ⟨r, hr⟩ := ih (fun b hb => h b (List.mem_cons_of_mem a hb))
    obtain ⟨ritems, rpanels⟩ := r
    by_cases hv : a.isVisible ctx = true
    · rcases hc : a.childContextMenuPanel with _ | c
      · refine ⟨(convertPanelActionToContextMenuItem a ctx :: ritems, [] ++ rpanels), ?_⟩
        rw [buildItemsLoop, hv]
        simp only [Bool.not_true, Bool.false_eq_true, if_false, hc, hr]
      · obtain ⟨o, ho⟩ := h a (List.mem_cons_self a rest) hv c hc
        refine ⟨(convertPanelActionToContextMenuItem a ctx :: ritems, o ++ rpanels), ?_⟩
        rw [buildItemsLoop, hv]
        simp only [Bool.not_true, Bool.false_eq_true, if_false, hc, ho, hr]
    · have hv' : a.isVisible ctx = false := by
        revert hv
        cases a.isVisible ctx <;> simp
      refine ⟨(ritems, rpanels), ?_⟩
      rw [buildItemsLoop, hv']
      simpa using hr

/-- Conversely, a successful items loop implies the recursive call
succeeded on every visible declared child occurring in the list. -/
theorem buildItemsLoop_child_some {E CS : Type}
    (recur : DashboardContextMenuPanel E CS → Option (List EuiContextMenuPanelDescriptor))
    (ctx : ActionCtx E CS) (l : List (DashboardPanelAction E CS))
    (r : List EuiContextMenuPanelItemDescriptor × List EuiContextMenuPanelDescriptor)
    (h : buildItemsLoop recur ctx l = some r) :
    ∀ a ∈ l, a.isVisible ctx = true → ∀ c, a.childContextMenuPanel = some c →
      ∃ o, recur c = some o := by
  induction l generalizing r with
  | nil => intro a ha; cases ha
  | cons b rest ih =>
    intro a ha hv c hc
    rcases List.mem_cons.mp ha with rfl | hmem
    · rw [buildItemsLoop, hv] at h
      simp only [Bool.not_true, Bool.false_eq_true, if_false, hc] at h
      rcases hchild : recur c with _ | o
      · rw [hchild] at h
        rcases buildItemsLoop recur ctx rest with _ | r' <;> simp at h
      · exact ⟨o, rfl⟩
    · by_cases hvb : b.isVisible ctx = true
      · rw [buildItemsLoop, hvb] at h
        simp only [Bool.not_true, Bool.false_eq_true, if_false] at h
        rcases hrest : buildItemsLoop recur ctx rest with _ | r'
        · rw [hrest] at h
          rcases b.childContextMenuPanel with _ | cb
          · simp at h
          · rcases recur cb with _ | ob <;> simp at h
        · exact ih r' hrest a hmem hv c hc
      · have hvb' : b.isVisible ctx = false := by
          revert hvb
          cases b.isVisible ctx <;> simp
        rw [buildItemsLoop, hvb'] at h
        simp only [Bool.not_false, if_true] at h
        exact ih r h a hmem hv c hc

/-- Success at fuel `fuel + 1` propagates one `childStep` down at fuel
`fuel`. -/
theorem buildEuiContextMenuPanels_step_some {E CS : Type} (fuel : Nat)
    (panel q : DashboardContextMenuPanel E CS) (actions : List (DashboardPanelAction E CS))
    (ctx : ActionCtx E CS) (out : List EuiContextMenuPanelDescriptor)
    (h : buildEuiContextMenuPanels (fuel + 1) panel actions ctx = some out)
    (hstep : childStep actions ctx panel q) :
    ∃ o, buildEuiContextMenuPanels fuel q actions ctx = some o := by
  obtain ⟨a, hmem, hparent, hvis, hchild⟩ := hstep
  rw [buildEuiContextMenuPanels] at h
  rcases hloop : buildItemsLoop (fun child => buildEuiContextMenuPanels fuel child actions ctx)
      ctx (getActionsForPanel panel.id actions) with _ | r
  · rw [hloop] at h
    cases h
  · have hafp : a ∈ getActionsForPanel panel.id actions := by
      unfold getActionsForPanel
      rw [List.mem_filter]
      exact ⟨hmem, by simp [hparent]⟩
    exact buildItemsLoop_child_some _ ctx _ r hloop a hafp hvis q hchild

/-- Termination direction: a rank function on panel ids that strictly
decreases along every visible child-declaring action (the standard witness
that the id graph is acyclic) bounds the recursion depth. -/
theorem buildEuiContextMenuPanels_total_of_rank {E CS : Type}
    (actions : List (DashboardPanelAction E CS)) (ctx : ActionCtx E CS) (rank : String → Nat)
    (hrank : ∀ a ∈ actions, a.isVisible ctx = true → ∀ c, a.childContextMenuPanel = some c →
      rank c.id < rank a.parentPanelId) :
    ∀ (n : Nat) (panel : DashboardContextMenuPanel E CS), rank panel.id < n →
      ∃ out, buildEuiContextMenuPanels n panel actions ctx = some out := by
  intro n
  induction n with
  | zero => intro panel hlt; omega
  | succ n ih =>
    intro panel hlt
    have hloop : ∃ r, buildItemsLoop
        (fun child => buildEuiContextMenuPanels n child actions ctx) ctx
        (getActionsForPanel panel.id actions) = some r := by
      apply buildItemsLoop_total
      intro a ha hv c hc
      have hm : a ∈ actions ∧ a.parentPanelId = panel.id := by
        unfold getActionsForPanel at ha
        rw [List.mem_filter] at ha
        exact ⟨ha.1, by simpa using ha.2⟩
      have hdec := hrank a hm.1 hv c hc
      rw [hm.2] at hdec
      exact ih c (by omega)
    obtain ⟨⟨items, panels⟩, hr⟩ := hloop
    refine ⟨{ id := panel.id, title := panel.title, items := items, content := panel.getContent ctx } :: panels, ?_⟩
    rw [buildEuiContextMenuPanels, hr]

/-- Non-termination direction: when a cycle of the visible child-step
relation is reachable from the starting panel, every fuel runs out. -/
theorem buildEuiContextMenuPanels_none_of_cycle {E CS : Type}
    (actions : List (DashboardPanelAction E CS)) (ctx : ActionCtx E CS) :
    ∀ (fuel : Nat) (panel : DashboardContextMenuPanel E CS),
      (∃ c, Relation.ReflTransGen (childStep actions ctx) panel c ∧
        Relation.TransGen (childStep actions ctx) c c) →
      buildEuiContextMenuPanels fuel panel actions ctx = none := by
  intro fuel
  induction fuel with
  | zero => intro panel _; rfl
  | succ fuel ih =>
    rintro panel ⟨c, hrt, htc⟩
    have hq : ∃ q, childStep actions ctx panel q ∧
        (∃ c', Relation.ReflTransGen (childStep actions ctx) q c' ∧
          Relation.TransGen (childStep actions ctx) c' c') := by
      rcases Relation.ReflTransGen.cases_head hrt with rfl | ⟨b, hb, hbc⟩
      · rcases Relation.TransGen.head'_iff.mp htc with ⟨b, hb, hbc⟩
        exact ⟨b, hb, panel, hbc, htc⟩
      · exact ⟨b, hb, c, hbc, htc⟩
    obtain ⟨q, hstep, hq'⟩ := hq
    by_contra hne
    obtain ⟨out, hout⟩ := Option.ne_none_iff_exists'.mp hne
    obtain ⟨o, ho⟩ := buildEuiContextMenuPanels_step_some fuel panel q actions ctx out hout hstep
    rw [ih q hq'] at ho
    cases ho

/-- C8: the projection terminates (some fuel succeeds) for every input
whose child-panel id graph admits a rank function strictly decreasing along
visible child-declaring actions — the standard witness of acyclicity — and
diverges (every fuel is exhausted) whenever a cycle of the visible
child-step relation is reachable from the starting panel. -/
theorem buildEuiContextMenuPanels_terminates_iff_acyclic {E CS : Type}
    (actions : List (DashboardPanelAction E CS)) (ctx : ActionCtx E CS) :
    (∀ rank : String → Nat,
      (∀ a ∈ actions, a.isVisible ctx = true → ∀ c, a.childContextMenuPanel = some c →
        rank c.id < rank a.parentPanelId) →
      ∀ panel : DashboardContextMenuPanel E CS,
        ∃ fuel out, buildEuiContextMenuPanels fuel panel actions ctx = some out) ∧
    (∀ panel : DashboardContextMenuPanel E CS,
      (∃ c, Relation.ReflTransGen (childStep actions ctx) panel c ∧
        Relation.TransGen (childStep actions ctx) c c) →
      ∀ fuel, buildEuiContextMenuPanels fuel panel actions ctx = none) := by
  constructor
  · intro rank hrank panel
    obtain ⟨out, hout⟩ := buildEuiContextMenuPanels_total_of_rank actions ctx rank hrank
      (rank panel.id + 1) panel (by omega)
    exact ⟨rank panel.id + 1, out, hout⟩
  · intro panel hcyc fuel
    exact buildEuiContextMenuPanels_none_of_cycle actions ctx fuel panel hcyc

/-! ## Concrete menu fixtures used as witnesses -/

/-- An execution context over trivial collaborator types. -/
def unitCtx : ActionCtx Unit Unit := { embeddable := none, containerState := () }

def childPanelFx : DashboardContextMenuPanel Unit Unit :=
  { id := "child", title := "Child", getContent := fun _ => none }

def rootPanelFx : DashboardContextMenuPanel Unit Unit :=
  { id := "root", title := "Root", getContent := fun _ => none }

/-- Two visible actions on the root panel referencing the same child panel. -/
def dupActionsFx : List (DashboardPanelAction Unit Unit) :=
  [ { id := "a1", parentPanelId := "root", displayName := "A1", icon := none,
      childContextMenuPanel := some childPanelFx, isVisible := fun _ => true,
      isDisabled := fun _ => false },
    { id := "a2", parentPanelId := "root", displayName := "A2", icon := none,
      childContextMenuPanel := some childPanelFx, isVisible := fun _ => true,
      isDisabled := fun _ => false } ]

def childDescriptorFx : EuiContextMenuPanelDescriptor :=
  { id := "child", title := "Child", items := [], content := none }

/-- The projection of `rootPanelFx` under `dupActionsFx`: the shared child
panel appears twice, once per referencing action. -/
def dupOutFx : List EuiContextMenuPanelDescriptor :=
  [ { id := "root", title := "Root",
      items := [ { name := "A1", icon := none, panel := some "child", disabled := false,
                   dataTestSubj := "dashboardPanelAction-a1" },
                 { name := "A2", icon := none, panel := some "child", disabled := false,
                   dataTestSubj := "dashboardPanelAction-a2" } ],
      content := none },
    childDescriptorFx, childDescriptorFx ]

def loopPanelFx : DashboardContextMenuPanel Unit Unit :=
  { id := "loop", title := "Loop", getContent := fun _ => none }

/-- A visible action whose child panel is its own parent panel: a one-step
cycle in the child-panel graph. -/
def loopActionFx : DashboardPanelAction Unit Unit :=
  { id := "c1", parentPanelId := "loop", displayName := "C1", icon := none,
    childContextMenuPanel := some loopPanelFx, isVisible := fun _ => true,
    isDisabled := fun _ => false }

def loopActionsFx : List (DashboardPanelAction Unit Unit) := [loopActionFx]

/-- The rank `root ↦ 1, everything else ↦ 0` strictly decreases along the
visible child-declaring actions of `dupActionsFx`. -/
theorem dupActionsFx_rank_dec : ∀ a ∈ dupActionsFx, a.isVisible unitCtx = true →
    ∀ c : DashboardContextMenuPanel Unit Unit, a.childContextMenuPanel = some c →
    (if c.id = "root" then 1 else 0) < (if a.parentPanelId = "root" then 1 else 0) := by
  intro a ha hv c hc
  fin_cases ha <;> (cases hc; simp [childPanelFx])

/-- `loopPanelFx` steps to itself through `loopActionFx`. -/
theorem loopPanelFx_self_step : childStep loopActionsFx unitCtx loopPanelFx loopPanelFx :=
  ⟨loopActionFx, by simp [loopActionsFx], rfl, rfl, rfl⟩

/-- C7 witness: concrete instance of the pre-order decomposition on the
shared-child fixture, whose output has the child panel twice and
`3 = 1 + 2` panels. -/
theorem buildEuiContextMenuPanels_preorder_witness :
    ∃ (items : List EuiContextMenuPanelItemDescriptor)
      (subtrees : List (List EuiContextMenuPanelDescriptor)) (n : Nat),
      List.Forall₂ (fun c sub => buildEuiContextMenuPanels 1 c dupActionsFx unitCtx = some sub)
        (visibleChildPanels rootPanelFx dupActionsFx unitCtx) subtrees ∧
      dupOutFx = { id := rootPanelFx.id, title := rootPanelFx.title, items := items,
                   content := rootPanelFx.getContent unitCtx } :: subtrees.flatten ∧
      visibleChildOccurrences (1 + 1) rootPanelFx dupActionsFx unitCtx = some n ∧
      dupOutFx.length = 1 + n :=
  buildEuiContextMenuPanels_preorder 1 rootPanelFx dupActionsFx unitCtx dupOutFx (by rfl)

/-- C8 witness: the acyclic fixture terminates (via the rank function) and
the one-step cycle exhausts any fuel. -/
theorem buildEuiContextMenuPanels_terminates_iff_acyclic_witness :
    (∃ fuel out, buildEuiContextMenuPanels fuel rootPanelFx dupActionsFx unitCtx = some out) ∧
    buildEuiContextMenuPanels 3 loopPanelFx loopActionsFx unitCtx = none :=
  ⟨(buildEuiContextMenuPanels_terminates_iff_acyclic dupActionsFx unitCtx).1
      (fun s => if s = "root" then 1 else 0) dupActionsFx_rank_dec rootPanelFx,
   (buildEuiContextMenuPanels_terminates_iff_acyclic loopActionsFx unitCtx).2 loopPanelFx
      ⟨loopPanelFx, Relation.ReflTransGen.refl, Relation.TransGen.single loopPanelFx_self_step⟩ 3⟩
